import Mathlib

/-!
Verification of the CodaLab worker entry point
(src/worker/codalabworker/main.py) and of the spec-level resource
partitioner and image cache manager.

The Python source is shallowly embedded: pure helpers become Lean
functions, exceptions become `Except`, and the side effects of `main`
and `create_run_manager` become explicit event traces. Python integers
are `Int`; sets of identifiers are `Finset Int`. String contents are
manipulated as `List Char` so that every definition evaluates by kernel
reduction.
-/

namespace CodalabWorker

instance {ε α : Type} [DecidableEq ε] [DecidableEq α] : DecidableEq (Except ε α) :=
  fun x y =>
    match x, y with
    | .ok a, .ok b =>
      if h : a = b then .isTrue (by rw [h]) else .isFalse (by simp [h])
    | .error e, .error f =>
      if h : e = f then .isTrue (by rw [h]) else .isFalse (by simp [h])
    | .ok _, .error _ => .isFalse (by simp)
    | .error _, .ok _ => .isFalse (by simp)

/-- Exceptions the embedded code can raise. `valueError` carries the
message from the `raise ValueError(...)` statement; `attributeError`
models calling `.group(1)` on the `None` returned by a failed
`re.search`. -/
inductive PyErr where
  | valueError (msg : String)
  | attributeError
  deriving DecidableEq, Repr

/-- Python `str.split(sep)` for a one-character separator: splitting an
empty string yields `[[]]`, and adjacent separators yield empty
fields, exactly as in Python. -/
def pySplit (sep : Char) : List Char → List (List Char)
  | [] => [[]]
  | c :: cs =>
    if c = sep then [] :: pySplit sep cs
    else
      match pySplit sep cs with
      | t :: ts => (c :: t) :: ts
      | [] => [[c]]

/-- Whitespace characters stripped by the Python `int` constructor. -/
def pyIsSpace (c : Char) : Bool :=
  c = ' ' || c = '\t' || c = '\n' || c = '\x0b' || c = '\x0c' || c = '\r'

/-- Decimal value of a list of digit characters. -/
def digitsVal (ds : List Char) : Nat :=
  ds.foldl (fun a c => a * 10 + (c.toNat - '0'.toNat)) 0

/-- The Python 2 `int(s)` constructor on a string: strip surrounding
whitespace, allow one optional sign, then require a nonempty run of
decimal digits. Returns `none` where Python raises `ValueError`. -/
def pyInt (s : List Char) : Option Int :=
  let t := ((s.dropWhile pyIsSpace).reverse.dropWhile pyIsSpace).reverse
  match t with
  | [] => none
  | c :: rest =>
    let (neg, digits) :=
      if c = '-' then (true, rest)
      else if c = '+' then (false, rest)
      else (false, c :: rest)
    if digits ≠ [] ∧ digits.all Char.isDigit then
      let n : Int := Int.ofNat (digitsVal digits)
      some (if neg then -n else n)
    else none

/-- The Python list comprehension `[int(s) for s in arg.split(",")]`:
each token through `pyInt`, the first failure aborting the whole
list. -/
def parseIntList : List (List Char) → Option (List Int)
  | [] => some []
  | t :: ts =>
    match pyInt t, parseIntList ts with
    | some n, some ns => some (n :: ns)
    | _, _ => none

/-- Python `re.search(r"^/dev/nvidia(\d+)$", path)` followed by
extracting group 1 as an integer. The `$` anchor also matches just
before one trailing newline, as in Python. Returns `none` where the
search returns `None`. -/
def matchNvidia (path : String) : Option Nat :=
  let cs := path.toList
  let q := if cs.getLast? = some '\n' then cs.dropLast else cs
  if q.take 11 = "/dev/nvidia".toList then
    let ds := q.drop 11
    if ds ≠ [] ∧ ds.all Char.isDigit then some (digitsVal ds) else none
  else none

/-- Embedding of `parse_cpuset_args` (main.py lines 160-180).
`cpu_count` stands for `multiprocessing.cpu_count()`. The Python
distinctness test `len(cpuset) == len(set(cpuset))` is rendered
literally as a comparison of the list length with the card of the
finset of its elements. -/
def parse_cpuset_args (cpu_count : Nat) (arg : String) :
    Except PyErr (Finset Int) :=
  if arg = "ALL" then
    .ok ((List.range cpu_count).map Int.ofNat).toFinset
  else
    match parseIntList (pySplit ',' arg.toList) with
    | none =>
      .error (.valueError
        "CPUSET_STR invalid format: must be a string of comma-separated integers")
    | some cpuset =>
      if ¬ (cpuset.length = cpuset.toFinset.card) then
        .error (.valueError "CPUSET_STR invalid: CPUs not distinct values")
      else if ¬ (cpuset.all fun cpu => decide (0 ≤ cpu ∧ cpu < (cpu_count : Int))) then
        .error (.valueError "CPUSET_STR invalid: CPUs out of range")
      else
        .ok cpuset.toFinset

/-- The `all_gpus` accumulation loop of `parse_gpuset_args`
(main.py lines 194-199). `info` is the result of
`docker_client.get_nvidia_devices_info()`: `none` for the Python
`None`, otherwise the list of the `Path` fields of `info["Devices"]`.
A path on which the regex search fails makes `m.group(1)` raise
`AttributeError`, which propagates. -/
def gpusLoop : List String → Except PyErr (List Int)
  | [] => .ok []
  | p :: ps =>
    match matchNvidia p with
    | none => .error .attributeError
    | some n =>
      match gpusLoop ps with
      | .error e => .error e
      | .ok ns => .ok (Int.ofNat n :: ns)

/-- The `all_gpus` value of `parse_gpuset_args`: empty when the device
info is `None`, otherwise the extracted device numbers. -/
def allGpus (info : Option (List String)) : Except PyErr (List Int) :=
  match info with
  | none => .ok []
  | some paths => gpusLoop paths

/-- Embedding of `parse_gpuset_args` (main.py lines 183-213). -/
def parse_gpuset_args (info : Option (List String)) (arg : String) :
    Except PyErr (Finset Int) :=
  if arg = "" then
    .ok ∅
  else
    match allGpus info with
    | .error e => .error e
    | .ok all_gpus =>
      if arg = "ALL" then
        .ok all_gpus.toFinset
      else
        match parseIntList (pySplit ',' arg.toList) with
        | none =>
          .error (.valueError
            "GPUSET_STR invalid format: must be a string of comma-separated integers")
        | some gpuset =>
          if ¬ (gpuset.length = gpuset.toFinset.card) then
            .error (.valueError "GPUSET_STR invalid: GPUs not distinct values")
          else if ¬ (gpuset.all fun gpu => decide (gpu ∈ all_gpus)) then
            .error (.valueError "GPUSET_STR invalid: GPUs out of range")
          else
            .ok gpuset.toFinset

/-- The parsed command-line arguments of main.py that the embedded code
reads (argparse fields of `args`). `args.network_prefix` is rendered as
`networkName`. -/
structure Args where
  server : String
  work_dir : String
  networkName : String
  cpuset : String
  gpuset : String
  max_work_dir_size : String
  max_image_cache_size : Option String
  password_file : Option String
  verbose : Bool
  batch_queue : Option String
  deriving DecidableEq, Repr

/-- The ambient process environment that main.py observes: the
permission mode bits `os.stat(path).st_mode` of the password file, the
CODALAB_USERNAME and CODALAB_PASSWORD environment variables,
`multiprocessing.cpu_count()`, the nvidia device paths reported by the
docker client (`none` for Python `None`), and whether `import boto3`
succeeds. -/
structure Env where
  passwordFileMode : String → Nat
  envUsername : Option String
  envPassword : Option String
  cpu_count : Nat
  nvidiaInfo : Option (List String)
  boto3Available : Bool

/-- `stat.S_IRWXG`: group read, write and execute bits. -/
def S_IRWXG : Nat := 0o070

/-- `stat.S_IRWXO`: other read, write and execute bits. -/
def S_IRWXO : Nat := 0o007

/-- Modelled from the spec: `parse_size` lives in the `formatting`
module, which is not under src/. The spec describes it as parsing a
size string such as 3, 3k, 3m, 3g, 3t into bytes; the suffix scales by
powers of 1024. -/
def parse_size (s : String) : Nat :=
  let cs := s.toList
  let (num, mult) :=
    match cs.getLast? with
    | some 'k' => (cs.dropLast, 1024)
    | some 'm' => (cs.dropLast, 1024 ^ 2)
    | some 'g' => (cs.dropLast, 1024 ^ 3)
    | some 't' => (cs.dropLast, 1024 ^ 4)
    | _ => (cs, 1)
  digitsVal num * mult

/-- Lines 108-111 of main.py: `max_images_bytes` is `None` when the
`--max-image-cache-size` option is absent, else the parsed size. -/
def maxImagesBytes (a : Args) : Option Nat :=
  match a.max_image_cache_size with
  | none => none
  | some s => some (parse_size s)

/-- Observable steps taken by `create_run_manager`
(main.py lines 116-143), in order. -/
inductive RMEvent where
  | logUsingDocker
  | createDockerClient
  | createImageManager (work_dir : String) (bound : Option Nat)
  | parseCpusetCall (arg : String)
  | parseGpusetCall (arg : String)
  | importBoto3
  | logMissingBoto3
  | logUsingBatch (queue : String)
  | createBatchClient
  deriving DecidableEq, Repr

/-- The value `create_run_manager` produces: a constructed run manager,
a process exit, or a propagated exception. -/
inductive RMResult where
  | dockerRM (imageBound : Option Nat) (networkName : String)
      (cpuset gpuset : Finset Int)
  | awsBatchRM (queue : String)
  | exited (code : Nat)
  | raised (e : PyErr)
  deriving DecidableEq

/-- Embedding of `create_run_manager` (main.py lines 116-143) as the
list of events it performs together with its result. In the local
branch it builds a docker client, an image manager bounded by
`max_images_bytes`, parses the cpuset and gpuset, and returns the
docker run manager; in the batch branch it imports boto3 (exiting with
status 1 when the import fails) and returns the AWS Batch run
manager. -/
def create_run_manager (a : Args) (env : Env) : List RMEvent × RMResult :=
  match a.batch_queue with
  | none =>
    let pre : List RMEvent :=
      [.logUsingDocker, .createDockerClient,
       .createImageManager a.work_dir (maxImagesBytes a)]
    match parse_cpuset_args env.cpu_count a.cpuset with
    | .error e => (pre ++ [.parseCpusetCall a.cpuset], .raised e)
    | .ok cpuset =>
      match parse_gpuset_args env.nvidiaInfo a.gpuset with
      | .error e =>
        (pre ++ [.parseCpusetCall a.cpuset, .parseGpusetCall a.gpuset], .raised e)
      | .ok gpuset =>
        (pre ++ [.parseCpusetCall a.cpuset, .parseGpusetCall a.gpuset],
         .dockerRM (maxImagesBytes a) a.networkName cpuset gpuset)
  | some q =>
    if env.boto3Available then
      ([.importBoto3, .logUsingBatch q, .createBatchClient], .awsBatchRM q)
    else
      ([.importBoto3, .logMissingBoto3], .exited 1)

/-- The signals for which main.py registers a handler. -/
inductive Sig where
  | sigterm
  | sigint
  | sighup
  deriving DecidableEq, Repr

/-- The handler installed by main.py; the lambda registered for every
signal calls `worker.signal()`. -/
inductive Handler where
  | workerSignal
  deriving DecidableEq, Repr

/-- Observable steps of `main` (main.py lines 24-157), in order. -/
inductive MEvent where
  | logConnecting (server : String)
  | statFile (path : String)
  | printPermissionsError (path : String)
  | exitProcess (code : Nat)
  | readPasswordFile (path : String)
  | promptUsername
  | promptPassword
  | setupLogging (verbose : Bool)
  | createBundleService (server : String)
  | constructWorker
  | registerSignal (s : Sig) (h : Handler)
  | printStdout (msg : String)
  | workerRun
  deriving DecidableEq, Repr

/-- The tail of the main trace once credentials are in hand: logging
setup, bundle service construction, worker construction, the three
signal-handler registrations, the ready message, and the run loop
(main.py lines 98-157). -/
def mainRest (a : Args) : List MEvent :=
  [.setupLogging a.verbose,
   .createBundleService a.server,
   .constructWorker,
   .registerSignal .sigterm .workerSignal,
   .registerSignal .sigint .workerSignal,
   .registerSignal .sighup .workerSignal,
   .printStdout "Worker started.",
   .workerRun]

/-- Embedding of `main` (main.py lines 24-157) as its event trace.
With a password file whose mode has any group or other permission bit
set, the process prints an error and exits with status 1; otherwise
credentials come from the file, or from the environment variables with
interactive prompts as fallback, and startup proceeds to the run
loop. -/
def mainTrace (a : Args) (env : Env) : List MEvent :=
  [.logConnecting a.server] ++
  (match a.password_file with
   | some p =>
     if env.passwordFileMode p &&& (S_IRWXG ||| S_IRWXO) ≠ 0 then
       [.statFile p, .printPermissionsError p, .exitProcess 1]
     else
       [.statFile p, .readPasswordFile p] ++ mainRest a
   | none =>
     (if env.envUsername = none then [.promptUsername] else []) ++
     (if env.envPassword = none then [.promptPassword] else []) ++
     mainRest a)

/-- Event `e1` occurs strictly before event `e2` in trace `t`. -/
def happensBefore (e1 e2 : MEvent) (t : List MEvent) : Prop :=
  ∃ l1 l2 l3, t = l1 ++ e1 :: l2 ++ e2 :: l3

/-- Modelled from the spec: the ResourcePool state of the Resource
Partitioner (spec section 3), a component whose implementation is not
under src/. `total` is the configured pool of identifiers and
`reserved` the subset currently handed out. -/
structure ResourcePool where
  total : Finset Nat
  reserved : Finset Nat
  deriving DecidableEq

/-- Modelled from the spec: Partitioner `reserve` (spec section 4.1).
Allocation is first-fit over currently unreserved identifiers, ties
broken by lowest identifier first; it fails when fewer free
identifiers remain than requested. -/
def reserve (n : Nat) (p : ResourcePool) :
    Option (Finset Nat × ResourcePool) :=
  let free := p.total \ p.reserved
  if n ≤ free.card then
    let s := ((free.sort (· ≤ ·)).take n).toFinset
    some (s, ⟨p.total, p.reserved ∪ s⟩)
  else
    none

/-- Modelled from the spec: Partitioner `release` (spec section 4.1)
returns the identifiers of a reserved set to the free pool. -/
def release (s : Finset Nat) (p : ResourcePool) : ResourcePool :=
  ⟨p.total, p.reserved \ s⟩

/-- A sequence of `reserve` calls run left to right, collecting the
returned sets; `none` as soon as one call fails. -/
def runReserves : List Nat → ResourcePool →
    Option (List (Finset Nat) × ResourcePool)
  | [], p => some ([], p)
  | n :: ns, p =>
    match reserve n p with
    | none => none
    | some (s, p1) =>
      match runReserves ns p1 with
      | none => none
      | some (ss, p2) => some (s :: ss, p2)

/-- Modelled from the spec: a cache entry of the Image Cache Manager
(spec section 3), a component whose implementation
(docker_image_manager) is not under src/. -/
structure CachedImage where
  ref : String
  size : Nat
  lastUsed : Nat
  refCount : Nat
  deriving DecidableEq

/-- Total on-disk size of a list of cache entries. -/
def totalSize (imgs : List CachedImage) : Nat :=
  (imgs.map CachedImage.size).sum

/-- Entries eligible for eviction: reference count 0. -/
def evictable (imgs : List CachedImage) : List CachedImage :=
  imgs.filter fun i => i.refCount = 0

/-- The least-recently-used entry among the evictable ones, if any. -/
def lruEvictable (imgs : List CachedImage) : Option CachedImage :=
  (evictable imgs).foldl
    (fun acc i =>
      match acc with
      | none => some i
      | some j => if i.lastUsed < j.lastUsed then some i else some j)
    none

/-- One pass of the eviction loop with explicit fuel: while the total
size exceeds the bound and an evictable entry remains, remove the
least-recently-used evictable entry and recompute. -/
def evictLoop (bound : Nat) : Nat → List CachedImage → List CachedImage
  | 0, imgs => imgs
  | fuel + 1, imgs =>
    if totalSize imgs ≤ bound then imgs
    else
      match lruEvictable imgs with
      | none => imgs
      | some v => evictLoop bound fuel (imgs.erase v)

/-- Modelled from the spec: `evict_if_over_budget` of the Image Cache
Manager (spec section 4.2). With no configured bound the manager
performs no eviction; with a bound it evicts strict-LRU among
reference-count-0 entries, one at a time, until the total size is
within the bound or nothing evictable remains. -/
def evict_if_over_budget (bound : Option Nat) (imgs : List CachedImage) :
    List CachedImage :=
  match bound with
  | none => imgs
  | some b => evictLoop b imgs.length imgs

/-! ## Helper lemmas -/

theorem pySplit_ne_nil (sep : Char) (cs : List Char) : pySplit sep cs ≠ [] := by
  induction cs with
  | nil => simp [pySplit]
  | cons c cs ih =>
    unfold pySplit
    split
    · simp
    · cases h : pySplit sep cs with
      | nil => exact absurd h ih
      | cons t ts => simp

theorem parseIntList_length {toks : List (List Char)} {xs : List Int}
    (h : parseIntList toks = some xs) : xs.length = toks.length := by
  induction toks generalizing xs with
  | nil => simp [parseIntList] at h; simp [← h]
  | cons t ts ih =>
    unfold parseIntList at h
    cases h1 : pyInt t with
    | none => rw [h1] at h; exact absurd h (by simp)
    | some n =>
      rw [h1] at h
      cases h2 : parseIntList ts with
      | none => rw [h2] at h; exact absurd h (by simp)
      | some ns =>
        rw [h2] at h
        simp at h
        subst h
        simp [ih h2]

theorem nodup_iff_length_eq_card {xs : List Int} :
    xs.Nodup ↔ xs.length = xs.toFinset.card := by
  constructor
  · intro h
    exact (List.toFinset_card_of_nodup h).symm
  · intro h
    have hc : xs.toFinset.card = xs.dedup.length := List.card_toFinset xs
    have hlen : xs.dedup.length = xs.length := by omega
    have hsub : xs.dedup.Sublist xs := List.dedup_sublist xs
    have : xs.dedup = xs := hsub.eq_of_length hlen
    have hd : xs.dedup.Nodup := List.nodup_dedup xs
    rwa [this] at hd

/-! ## Claim theorems -/

/-- C8: `parse_gpuset_args` applied to the empty string returns the
empty set for every possible device-enumeration value, so the
enumeration is never consulted; and when the enumeration reports no
information (`None`), the "ALL" argument yields the empty set while
any explicit argument raises `ValueError`. -/
theorem gpuset_empty_and_missing_info :
    (∀ info, parse_gpuset_args info "" = .ok ∅) ∧
    parse_gpuset_args none "ALL" = .ok (∅ : Finset Int) ∧
    (∀ arg : String, arg ≠ "" → arg ≠ "ALL" →
      ∃ msg, parse_gpuset_args none arg = .error (.valueError msg)) := by
  refine ⟨fun info => by simp [parse_gpuset_args], by decide, ?_⟩
  intro arg h1 h2
  cases h3 : parseIntList (pySplit ',' arg.data) with
  | none =>
    exact ⟨"GPUSET_STR invalid format: must be a string of comma-separated integers",
      by simp [parse_gpuset_args, allGpus, h1, h2, h3]⟩
  | some xs =>
    by_cases hnd : xs.length = xs.toFinset.card
    · have hne : xs ≠ [] := by
        intro hnil
        have := parseIntList_length h3
        rw [hnil] at this
        exact pySplit_ne_nil ',' arg.data (List.length_eq_zero.mp this.symm)
      refine ⟨"GPUSET_STR invalid: GPUs out of range", ?_⟩
      simp [parse_gpuset_args, allGpus, h1, h2, h3, hnd]
      exact List.exists_mem_of_ne_nil xs hne
    · exact ⟨"GPUSET_STR invalid: GPUs not distinct values",
        by simp [parse_gpuset_args, allGpus, h1, h2, h3, hnd]⟩

/-- Closed instances of `gpuset_empty_and_missing_info`: an empty
argument with nontrivial device info, and the explicit argument "3"
with no device info. -/
theorem gpuset_empty_and_missing_info_witness :
    parse_gpuset_args (some ["/dev/nvidiactl"]) "" = .ok ∅ ∧
    ∃ msg, parse_gpuset_args none "3" = .error (.valueError msg) :=
  ⟨gpuset_empty_and_missing_info.1 (some ["/dev/nvidiactl"]),
   gpuset_empty_and_missing_info.2.2 "3" (by decide) (by decide)⟩

/-- C10: with a batch queue configured but boto3 unavailable,
`create_run_manager` exits the process with status 1 and never falls
back to the local docker run manager. -/
theorem batch_without_boto3_exits (a : Args) (env : Env) (q : String)
    (hq : a.batch_queue = some q) (hb : env.boto3Available = false) :
    create_run_manager a env = ([.importBoto3, .logMissingBoto3], .exited 1) ∧
    ∀ b n c g, (create_run_manager a env).2 ≠ .dockerRM b n c g := by
  constructor
  · simp [create_run_manager, hq, hb]
  · intro b n c g
    simp [create_run_manager, hq, hb]

/-- Closed instance of `batch_without_boto3_exits`. -/
theorem batch_without_boto3_exits_witness :
    create_run_manager
      ⟨"https://worksheets.codalab.org", "scratch", "net", "ALL", "ALL",
       "10g", none, none, false, some "queue"⟩
      ⟨fun _ => 0, none, none, 4, none, false⟩ =
      ([.importBoto3, .logMissingBoto3], .exited 1) :=
  (batch_without_boto3_exits _ _ "queue" rfl rfl).1

/-- C2: the execution backend is a pure function of the configuration,
chosen once: with no batch queue, `create_run_manager` returns the
local docker run manager built from the parsed cpuset and gpuset; with
a batch queue it returns the AWS Batch run manager and neither
`parse_cpuset_args` nor `parse_gpuset_args` is ever invoked. -/
theorem backend_selected_from_config (a : Args) (env : Env) :
    (a.batch_queue = none →
      ∀ S G, parse_cpuset_args env.cpu_count a.cpuset = .ok S →
        parse_gpuset_args env.nvidiaInfo a.gpuset = .ok G →
        (create_run_manager a env).2 =
          .dockerRM (maxImagesBytes a) a.networkName S G ∧
        RMEvent.parseCpusetCall a.cpuset ∈ (create_run_manager a env).1 ∧
        RMEvent.parseGpusetCall a.gpuset ∈ (create_run_manager a env).1) ∧
    (∀ q, a.batch_queue = some q →
      (∀ s, RMEvent.parseCpusetCall s ∉ (create_run_manager a env).1) ∧
      (∀ s, RMEvent.parseGpusetCall s ∉ (create_run_manager a env).1) ∧
      (env.boto3Available = true →
        (create_run_manager a env).2 = .awsBatchRM q)) := by
  constructor
  · intro hq S G hS hG
    refine ⟨?_, ?_, ?_⟩ <;> simp [create_run_manager, hq, hS, hG]
  · intro q hq
    refine ⟨?_, ?_, ?_⟩
    · intro s
      cases hb : env.boto3Available <;> simp [create_run_manager, hq, hb]
    · intro s
      cases hb : env.boto3Available <;> simp [create_run_manager, hq, hb]
    · intro hb
      simp [create_run_manager, hq, hb]

/-- Closed instances of `backend_selected_from_config`: one local
configuration producing the docker run manager from the parsed sets,
one batch configuration producing the AWS Batch run manager. -/
theorem backend_selected_from_config_witness :
    (create_run_manager
      ⟨"s", "w", "net", "0,1", "0", "10g", none, none, false, none⟩
      ⟨fun _ => 0, none, none, 4, some ["/dev/nvidia0"], true⟩).2 =
      .dockerRM none "net" {0, 1} {0} ∧
    (create_run_manager
      ⟨"s", "w", "net", "0,1", "0", "10g", none, none, false, some "queue"⟩
      ⟨fun _ => 0, none, none, 4, some ["/dev/nvidia0"], true⟩).2 =
      .awsBatchRM "queue" :=
  ⟨((backend_selected_from_config _ _).1 rfl {0, 1} {0}
      (by decide) (by decide)).1,
   ((backend_selected_from_config _ _).2 "queue" rfl).2.2 rfl⟩

/-- C5: with no `--max-image-cache-size` option the image manager is
constructed with a `None` bound and eviction is a no-op; with the
option present it is constructed with exactly the parsed byte count.
The eviction behaviour is that of the spec-modelled image cache
manager, the code of which is not under src/. -/
theorem image_cache_bound_config (a : Args) (env : Env) :
    (a.max_image_cache_size = none →
      maxImagesBytes a = none ∧
      ∀ imgs, evict_if_over_budget (maxImagesBytes a) imgs = imgs) ∧
    (∀ s, a.max_image_cache_size = some s →
      maxImagesBytes a = some (parse_size s)) ∧
    (a.batch_queue = none →
      RMEvent.createImageManager a.work_dir (maxImagesBytes a) ∈
        (create_run_manager a env).1) := by
  refine ⟨?_, ?_, ?_⟩
  · intro h
    refine ⟨by simp [maxImagesBytes, h], fun imgs => ?_⟩
    simp [maxImagesBytes, h, evict_if_over_budget]
  · intro s h
    simp [maxImagesBytes, h]
  · intro h
    cases hc : parse_cpuset_args env.cpu_count a.cpuset with
    | error e => simp [create_run_manager, h, hc]
    | ok S =>
      cases hg : parse_gpuset_args env.nvidiaInfo a.gpuset with
      | error e => simp [create_run_manager, h, hc, hg]
      | ok G => simp [create_run_manager, h, hc, hg]

/-- Closed instances of `image_cache_bound_config`: no bound means no
eviction on a sample cache, a bound of "3g" is parsed into bytes, and
the local branch constructs the image manager with the configured
bound. -/
theorem image_cache_bound_config_witness :
    evict_if_over_budget
      (maxImagesBytes ⟨"s", "w", "net", "ALL", "", "10g", none, none, false, none⟩)
      [⟨"img", 5, 0, 1⟩] = [⟨"img", 5, 0, 1⟩] ∧
    maxImagesBytes ⟨"s", "w", "net", "ALL", "", "10g", some "3g", none, false, none⟩ =
      some (parse_size "3g") ∧
    RMEvent.createImageManager "w"
      (maxImagesBytes ⟨"s", "w", "net", "ALL", "", "10g", none, none, false, none⟩) ∈
      (create_run_manager
        ⟨"s", "w", "net", "ALL", "", "10g", none, none, false, none⟩
        ⟨fun _ => 0, none, none, 4, none, true⟩).1 :=
  ⟨((image_cache_bound_config
      ⟨"s", "w", "net", "ALL", "", "10g", none, none, false, none⟩
      ⟨fun _ => 0, none, none, 4, none, true⟩).1 rfl).2 [⟨"img", 5, 0, 1⟩],
   (image_cache_bound_config
      ⟨"s", "w", "net", "ALL", "", "10g", some "3g", none, false, none⟩
      ⟨fun _ => 0, none, none, 4, none, true⟩).2.1 "3g" rfl,
   (image_cache_bound_config
      ⟨"s", "w", "net", "ALL", "", "10g", none, none, false, none⟩
      ⟨fun _ => 0, none, none, 4, none, true⟩).2.2 rfl⟩

/-- When the password file (if any) has no group or other permission
bits set, the main trace is a credential prefix followed by `mainRest`;
the prefix holds only connection-log, stat, file-read and prompt
events, and holds the password-file read whenever a password file is
configured. -/
theorem mainTrace_decomp (a : Args) (env : Env)
    (h : ∀ p, a.password_file = some p →
      env.passwordFileMode p &&& (S_IRWXG ||| S_IRWXO) = 0) :
    ∃ pre, mainTrace a env = pre ++ mainRest a ∧
      (∀ e ∈ pre, e = MEvent.logConnecting a.server ∨
        (∃ p, e = MEvent.statFile p) ∨
        (∃ p, e = MEvent.readPasswordFile p) ∨
        e = MEvent.promptUsername ∨ e = MEvent.promptPassword) ∧
      (∀ p, a.password_file = some p → MEvent.readPasswordFile p ∈ pre) := by
  cases hpf : a.password_file with
  | some p =>
    refine ⟨[.logConnecting a.server, .statFile p, .readPasswordFile p],
      ?_, ?_, ?_⟩
    · simp only [mainTrace, hpf]
      rw [if_neg (not_not_intro (h p hpf))]
      simp
    · intro e he
      simp at he
      rcases he with rfl | rfl | rfl <;> simp
    · intro p2 hp2
      injection hp2 with hh
      subst hh
      simp
  | none =>
    cases hu : env.envUsername with
    | none =>
      cases hw : env.envPassword with
      | none =>
        refine ⟨[.logConnecting a.server, .promptUsername, .promptPassword],
          ?_, ?_, ?_⟩
        · simp only [mainTrace, hpf]
          simp [hu, hw]
        · intro e he; simp at he; rcases he with rfl | rfl | rfl <;> simp
        · intro p2 hp2; simp at hp2
      | some w =>
        refine ⟨[.logConnecting a.server, .promptUsername], ?_, ?_, ?_⟩
        · simp only [mainTrace, hpf]
          simp [hu, hw]
        · intro e he; simp at he; rcases he with rfl | rfl <;> simp
        · intro p2 hp2; simp at hp2
    | some u =>
      cases hw : env.envPassword with
      | none =>
        refine ⟨[.logConnecting a.server, .promptPassword], ?_, ?_, ?_⟩
        · simp only [mainTrace, hpf]
          simp [hu, hw]
        · intro e he; simp at he; rcases he with rfl | rfl <;> simp
        · intro p2 hp2; simp at hp2
      | some w =>
        refine ⟨[.logConnecting a.server], ?_, ?_, ?_⟩
        · simp only [mainTrace, hpf]
          simp [hu, hw]
        · intro e he; simp at he; subst he; simp
        · intro p2 hp2; simp at hp2

/-- C6: whenever startup does not abort on password-file permissions,
the handler invoking `worker.signal` is registered for each of
SIGTERM, SIGINT and SIGHUP strictly before the worker run loop
starts. -/
theorem termination_signals_registered (a : Args) (env : Env)
    (h : ∀ p, a.password_file = some p →
      env.passwordFileMode p &&& (S_IRWXG ||| S_IRWXO) = 0) :
    ∀ s : Sig, happensBefore (.registerSignal s .workerSignal) .workerRun
      (mainTrace a env) := by
  obtain ⟨pre, htr, -, -⟩ := mainTrace_decomp a env h
  intro s
  cases s with
  | sigterm =>
    exact ⟨pre ++ [.setupLogging a.verbose, .createBundleService a.server,
        .constructWorker],
      [.registerSignal .sigint .workerSignal,
       .registerSignal .sighup .workerSignal,
       .printStdout "Worker started."], [],
      by simp [htr, mainRest]⟩
  | sigint =>
    exact ⟨pre ++ [.setupLogging a.verbose, .createBundleService a.server,
        .constructWorker, .registerSignal .sigterm .workerSignal],
      [.registerSignal .sighup .workerSignal,
       .printStdout "Worker started."], [],
      by simp [htr, mainRest]⟩
  | sighup =>
    exact ⟨pre ++ [.setupLogging a.verbose, .createBundleService a.server,
        .constructWorker, .registerSignal .sigterm .workerSignal,
        .registerSignal .sigint .workerSignal],
      [.printStdout "Worker started."], [],
      by simp [htr, mainRest]⟩

/-- Closed instance of `termination_signals_registered` for SIGTERM
with no password file configured. -/
theorem termination_signals_registered_witness :
    happensBefore (.registerSignal .sigterm .workerSignal) .workerRun
      (mainTrace
        ⟨"https://worksheets.codalab.org", "scratch", "net", "ALL", "ALL",
         "10g", none, none, false, none⟩
        ⟨fun _ => 0, some "user", some "pw", 4, none, true⟩) :=
  termination_signals_registered _ _ (fun p hp => by simp at hp) .sigterm

/-- C7: whenever startup does not abort on password-file permissions,
the ready indicator is printed exactly after all initialization
(credential reading, bundle service construction, worker construction,
signal-handler registration) and strictly before the run loop; the
trace ends with the ready print followed by the run event. -/
theorem ready_printed_before_run (a : Args) (env : Env)
    (h : ∀ p, a.password_file = some p →
      env.passwordFileMode p &&& (S_IRWXG ||| S_IRWXO) = 0) :
    ∃ pre, mainTrace a env = pre ++ [.printStdout "Worker started.", .workerRun] ∧
      MEvent.constructWorker ∈ pre ∧
      MEvent.createBundleService a.server ∈ pre ∧
      (∀ s : Sig, MEvent.registerSignal s .workerSignal ∈ pre) ∧
      (∀ p, a.password_file = some p → MEvent.readPasswordFile p ∈ pre) ∧
      MEvent.printStdout "Worker started." ∉ pre ∧
      MEvent.workerRun ∉ pre := by
  obtain ⟨pre0, htr, hshape, hread⟩ := mainTrace_decomp a env h
  refine ⟨pre0 ++ [.setupLogging a.verbose, .createBundleService a.server,
      .constructWorker, .registerSignal .sigterm .workerSignal,
      .registerSignal .sigint .workerSignal,
      .registerSignal .sighup .workerSignal], ?_, ?_, ?_, ?_, ?_, ?_, ?_⟩
  · simp [htr, mainRest]
  · simp
  · simp
  · intro s
    cases s <;> simp
  · intro p hp
    exact List.mem_append_left _ (hread p hp)
  · intro hmem
    rcases List.mem_append.mp hmem with hm | hm
    · rcases hshape _ hm with he | ⟨p, he⟩ | ⟨p, he⟩ | he | he <;> simp at he
    · simp at hm
  · intro hmem
    rcases List.mem_append.mp hmem with hm | hm
    · rcases hshape _ hm with he | ⟨p, he⟩ | ⟨p, he⟩ | he | he <;> simp at he
    · simp at hm

/-- Closed instance of `ready_printed_before_run` with no password
file configured. -/
theorem ready_printed_before_run_witness :
    ∃ pre, mainTrace
        ⟨"https://worksheets.codalab.org", "scratch", "net", "ALL", "ALL",
         "10g", none, none, false, none⟩
        ⟨fun _ => 0, some "user", some "pw", 4, none, true⟩ =
        pre ++ [.printStdout "Worker started.", .workerRun] ∧
      MEvent.constructWorker ∈ pre ∧
      MEvent.createBundleService "https://worksheets.codalab.org" ∈ pre ∧
      (∀ s : Sig, MEvent.registerSignal s .workerSignal ∈ pre) ∧
      (∀ p, (none : Option String) = some p →
        MEvent.readPasswordFile p ∈ pre) ∧
      MEvent.printStdout "Worker started." ∉ pre ∧
      MEvent.workerRun ∉ pre :=
  ready_printed_before_run _ _ (fun p hp => by simp at hp)

/-- C9: with a password file whose mode has any group or other
permission bit set, main prints the permissions error and exits with
status 1 without reading the file and without constructing the bundle
service client; the file is read only when all those bits are
clear. -/
theorem password_file_permissions_enforced (a : Args) (env : Env) (p : String)
    (hpf : a.password_file = some p) :
    (env.passwordFileMode p &&& (S_IRWXG ||| S_IRWXO) ≠ 0 →
      mainTrace a env = [.logConnecting a.server, .statFile p,
        .printPermissionsError p, .exitProcess 1] ∧
      MEvent.readPasswordFile p ∉ mainTrace a env ∧
      MEvent.createBundleService a.server ∉ mainTrace a env) ∧
    (MEvent.readPasswordFile p ∈ mainTrace a env →
      env.passwordFileMode p &&& (S_IRWXG ||| S_IRWXO) = 0) := by
  have key : env.passwordFileMode p &&& (S_IRWXG ||| S_IRWXO) ≠ 0 →
      mainTrace a env = [.logConnecting a.server, .statFile p,
        .printPermissionsError p, .exitProcess 1] := by
    intro hm
    simp only [mainTrace, hpf]
    rw [if_pos hm]
    rfl
  constructor
  · intro hm
    refine ⟨key hm, ?_, ?_⟩ <;> simp [key hm]
  · intro hmem
    by_cases hm : env.passwordFileMode p &&& (S_IRWXG ||| S_IRWXO) = 0
    · exact hm
    · rw [key hm] at hmem
      simp at hmem

/-- Closed instance of `password_file_permissions_enforced`: mode 640
on the password file (group-readable) aborts startup with exit status
1 before the file is read. -/
theorem password_file_permissions_enforced_witness :
    mainTrace
      ⟨"https://worksheets.codalab.org", "scratch", "net", "ALL", "ALL",
       "10g", none, some "secret.txt", false, none⟩
      ⟨fun _ => 0o640, none, none, 4, none, true⟩ =
      [.logConnecting "https://worksheets.codalab.org", .statFile "secret.txt",
       .printPermissionsError "secret.txt", .exitProcess 1] :=
  ((password_file_permissions_enforced _ _ "secret.txt" rfl).1 (by decide)).1

/-- With every reported device path of the recognized form, the
`all_gpus` loop succeeds and collects exactly the numbers extracted
from the reported paths. -/
theorem gpusLoop_ok_iff (paths : List String)
    (h : ∀ p ∈ paths, ∃ k, matchNvidia p = some k) :
    ∃ gl, gpusLoop paths = .ok gl ∧
      ∀ n : Int, n ∈ gl ↔
        ∃ p ∈ paths, ∃ k, matchNvidia p = some k ∧ n = Int.ofNat k := by
  induction paths with
  | nil => exact ⟨[], rfl, by simp⟩
  | cons p ps ih =>
    obtain ⟨k, hk⟩ := h p (by simp)
    obtain ⟨gl, hgl, hmem⟩ := ih (fun q hq => h q (by simp [hq]))
    refine ⟨Int.ofNat k :: gl, by simp [gpusLoop, hk, hgl], ?_⟩
    intro n
    simp only [List.mem_cons, hmem n]
    constructor
    · rintro (rfl | ⟨q, hq, k2, hk2, rfl⟩)
      · exact ⟨p, by simp, k, hk, rfl⟩
      · exact ⟨q, by simp [hq], k2, hk2, rfl⟩
    · rintro ⟨q, hq, k2, hk2, rfl⟩
      rcases hq with rfl | hq2
      · rw [hk] at hk2
        injection hk2 with hh
        subst hh
        exact Or.inl rfl
      · exact Or.inr ⟨q, hq2, k2, hk2, rfl⟩

/-- C1 counterexample: the device enumeration reporting the single
path "/dev/nvidiactl" makes `parse_gpuset_args` with "ALL" raise
`AttributeError`, rather than return the set of device numbers N for
which a path of the form /dev/nvidiaN was reported (the empty set
here). -/
theorem gpuset_all_malformed_path_raises :
    parse_gpuset_args (some ["/dev/nvidiactl"]) "ALL" = .error .attributeError ∧
    parse_gpuset_args (some ["/dev/nvidiactl"]) "ALL" ≠ .ok ∅ := by decide

/-- C1 (amended): with the "ALL" sentinel, `parse_cpuset_args` returns
exactly the identifiers 0 to cpu_count-1; and provided every reported
device path has the form /dev/nvidiaN, `parse_gpuset_args` with "ALL"
returns exactly the device numbers extracted from the reported paths
(a report containing any other path instead raises, per the
counterexample). -/
theorem all_sentinel_full_sets (cpu_count : Nat) (paths : List String)
    (h : ∀ p ∈ paths, ∃ k, matchNvidia p = some k) :
    (∃ S, parse_cpuset_args cpu_count "ALL" = .ok S ∧
      ∀ i : Int, i ∈ S ↔ 0 ≤ i ∧ i < (cpu_count : Int)) ∧
    (∃ S, parse_gpuset_args (some paths) "ALL" = .ok S ∧
      ∀ n : Int, n ∈ S ↔
        ∃ p ∈ paths, ∃ k, matchNvidia p = some k ∧ n = Int.ofNat k) := by
  constructor
  · refine ⟨((List.range cpu_count).map Int.ofNat).toFinset,
      by simp [parse_cpuset_args], ?_⟩
    intro i
    simp only [List.mem_toFinset, List.mem_map, List.mem_range]
    simp only [Int.ofNat_eq_coe]
    constructor
    · rintro ⟨j, hj, rfl⟩
      omega
    · rintro ⟨h0, hlt⟩
      exact ⟨i.toNat, by omega, by omega⟩
  · obtain ⟨gl, hgl, hmem⟩ := gpusLoop_ok_iff paths h
    refine ⟨gl.toFinset, by simp [parse_gpuset_args, allGpus, hgl], ?_⟩
    intro n
    rw [List.mem_toFinset]
    exact hmem n

/-- Closed instance of `all_sentinel_full_sets` with two CPUs and two
well-formed device paths. -/
theorem all_sentinel_full_sets_witness :
    (∃ S, parse_cpuset_args 2 "ALL" = .ok S ∧
      ∀ i : Int, i ∈ S ↔ 0 ≤ i ∧ i < (2 : Int)) ∧
    (∃ S, parse_gpuset_args (some ["/dev/nvidia0", "/dev/nvidia1"]) "ALL" = .ok S ∧
      ∀ n : Int, n ∈ S ↔
        ∃ p ∈ ["/dev/nvidia0", "/dev/nvidia1"], ∃ k,
          matchNvidia p = some k ∧ n = Int.ofNat k) :=
  all_sentinel_full_sets 2 ["/dev/nvidia0", "/dev/nvidia1"]
    (by
      intro p hp
      simp at hp
      rcases hp with rfl | rfl
      · exact ⟨0, by decide⟩
      · exact ⟨1, by decide⟩)

/-- C4: for explicit (non-"ALL") arguments, `parse_cpuset_args`
returns exactly the listed identifiers when every token parses as an
integer, the integers are pairwise distinct, and each lies in
[0, cpu_count); in every other case it raises `ValueError`.
Symmetrically for `parse_gpuset_args` on explicit non-empty arguments,
with membership among the discovered device numbers `gl` (stated under
a successfully computed `all_gpus`, which always holds when the device
enumeration is absent or well-formed). -/
theorem explicit_set_args_validated :
    (∀ (cpu_count : Nat) (arg : String), arg ≠ "ALL" →
      (∀ xs, parseIntList (pySplit ',' arg.data) = some xs → xs.Nodup →
        (∀ x ∈ xs, 0 ≤ x ∧ x < (cpu_count : Int)) →
        parse_cpuset_args cpu_count arg = .ok xs.toFinset) ∧
      ((¬ ∃ xs, parseIntList (pySplit ',' arg.data) = some xs ∧ xs.Nodup ∧
          ∀ x ∈ xs, 0 ≤ x ∧ x < (cpu_count : Int)) →
        ∃ msg, parse_cpuset_args cpu_count arg = .error (.valueError msg))) ∧
    (∀ (info : Option (List String)) (arg : String) (gl : List Int),
      arg ≠ "" → arg ≠ "ALL" → allGpus info = .ok gl →
      (∀ xs, parseIntList (pySplit ',' arg.data) = some xs → xs.Nodup →
        (∀ x ∈ xs, x ∈ gl) →
        parse_gpuset_args info arg = .ok xs.toFinset) ∧
      ((¬ ∃ xs, parseIntList (pySplit ',' arg.data) = some xs ∧ xs.Nodup ∧
          ∀ x ∈ xs, x ∈ gl) →
        ∃ msg, parse_gpuset_args info arg = .error (.valueError msg))) := by
  constructor
  · intro cpu_count arg hA
    constructor
    · intro xs hxs hnd hbd
      have hlen := nodup_iff_length_eq_card.mp hnd
      simp [parse_cpuset_args, hA, hxs, hlen]
      exact hbd
    · intro hbad
      cases hxs : parseIntList (pySplit ',' arg.data) with
      | none =>
        exact ⟨"CPUSET_STR invalid format: must be a string of comma-separated integers",
          by simp [parse_cpuset_args, hA, hxs]⟩
      | some xs =>
        by_cases hnd : xs.Nodup
        · have hbd : ¬ ∀ x ∈ xs, 0 ≤ x ∧ x < (cpu_count : Int) :=
            fun hb => hbad ⟨xs, hxs, hnd, hb⟩
          have hlen := nodup_iff_length_eq_card.mp hnd
          refine ⟨"CPUSET_STR invalid: CPUs out of range", ?_⟩
          simp [parse_cpuset_args, hA, hxs, hlen]
          push_neg at hbd
          exact hbd
        · have hlen : ¬ xs.length = xs.toFinset.card :=
            fun he => hnd (nodup_iff_length_eq_card.mpr he)
          exact ⟨"CPUSET_STR invalid: CPUs not distinct values",
            by simp [parse_cpuset_args, hA, hxs, hlen]⟩
  · intro info arg gl hE hA hgl
    constructor
    · intro xs hxs hnd hbd
      have hlen := nodup_iff_length_eq_card.mp hnd
      simp [parse_gpuset_args, hE, hA, hgl, hxs, hlen]
      exact hbd
    · intro hbad
      cases hxs : parseIntList (pySplit ',' arg.data) with
      | none =>
        exact ⟨"GPUSET_STR invalid format: must be a string of comma-separated integers",
          by simp [parse_gpuset_args, hE, hA, hgl, hxs]⟩
      | some xs =>
        by_cases hnd : xs.Nodup
        · have hbd : ¬ ∀ x ∈ xs, x ∈ gl := fun hb => hbad ⟨xs, hxs, hnd, hb⟩
          have hlen := nodup_iff_length_eq_card.mp hnd
          refine ⟨"GPUSET_STR invalid: GPUs out of range", ?_⟩
          simp [parse_gpuset_args, hE, hA, hgl, hxs, hlen]
          push_neg at hbd
          exact hbd
        · have hlen : ¬ xs.length = xs.toFinset.card :=
            fun he => hnd (nodup_iff_length_eq_card.mpr he)
          exact ⟨"GPUSET_STR invalid: GPUs not distinct values",
            by simp [parse_gpuset_args, hE, hA, hgl, hxs, hlen]⟩

/-- Closed instances of `explicit_set_args_validated`: the explicit
cpuset "0,2" against four CPUs and the explicit gpuset "0" against the
single discovered device 0. -/
theorem explicit_set_args_validated_witness :
    parse_cpuset_args 4 "0,2" = .ok ([0, 2] : List Int).toFinset ∧
    parse_gpuset_args (some ["/dev/nvidia0"]) "0" = .ok ([0] : List Int).toFinset :=
  ⟨(explicit_set_args_validated.1 4 "0,2" (by decide)).1 [0, 2]
      (by decide) (by decide) (by decide),
   (explicit_set_args_validated.2 (some ["/dev/nvidia0"]) "0" [0]
      (by decide) (by decide) (by decide)).1 [0]
      (by decide) (by decide) (by decide)⟩

/-- A successful `reserve` hands out the `n` lowest free identifiers:
a set of exactly `n` identifiers drawn from the free pool, which it
adds to the reserved set. -/
theorem reserve_some {n : Nat} {p : ResourcePool}
    (h : n ≤ (p.total \ p.reserved).card) :
    ∃ s, reserve n p = some (s, ⟨p.total, p.reserved ∪ s⟩) ∧
      s.card = n ∧ s ⊆ p.total \ p.reserved := by
  refine ⟨(((p.total \ p.reserved).sort (· ≤ ·)).take n).toFinset, ?_, ?_, ?_⟩
  · simp only [reserve]
    rw [if_pos h]
  · have hnd : (((p.total \ p.reserved).sort (· ≤ ·)).take n).Nodup :=
      (Finset.sort_nodup _ _).sublist (List.take_sublist _ _)
    rw [List.toFinset_card_of_nodup hnd, List.length_take, Finset.length_sort]
    omega
  · intro x hx
    rw [List.mem_toFinset] at hx
    exact (Finset.mem_sort (α := Nat) (· ≤ ·)).mp (List.take_subset _ _ hx)

/-- Running a sequence of `reserve` calls whose requested counts fit in
the free pool succeeds, returns sets of exactly the requested sizes all
drawn from the initially free identifiers, and the returned sets are
pairwise disjoint. -/
theorem runReserves_spec (ns : List Nat) :
    ∀ p : ResourcePool, ns.sum ≤ (p.total \ p.reserved).card →
    ∃ ss p2, runReserves ns p = some (ss, p2) ∧
      List.map Finset.card ss = ns ∧
      (∀ s ∈ ss, s ⊆ p.total \ p.reserved) ∧
      List.Pairwise Disjoint ss := by
  induction ns with
  | nil =>
    intro p _
    exact ⟨[], p, rfl, rfl, by simp, by simp⟩
  | cons n ns ih =>
    intro p h
    rw [List.sum_cons] at h
    have hn : n ≤ (p.total \ p.reserved).card := by omega
    obtain ⟨s, hres, hcard, hsub⟩ := reserve_some hn
    have hfree1 : (⟨p.total, p.reserved ∪ s⟩ : ResourcePool).total \
        (⟨p.total, p.reserved ∪ s⟩ : ResourcePool).reserved =
        (p.total \ p.reserved) \ s := by
      ext x
      simp only [Finset.mem_sdiff, Finset.mem_union]
      tauto
    have hcard1 : ((p.total \ p.reserved) \ s).card =
        (p.total \ p.reserved).card - n := by
      rw [Finset.card_sdiff hsub, hcard]
    obtain ⟨ss, p2, hrun, hmap, hsubs, hpw⟩ :=
      ih ⟨p.total, p.reserved ∪ s⟩ (by rw [hfree1, hcard1]; omega)
    refine ⟨s :: ss, p2, ?_, ?_, ?_, ?_⟩
    · simp [runReserves, hres, hrun]
    · simp [hmap, hcard]
    · intro t ht
      rcases List.mem_cons.mp ht with rfl | ht2
      · exact hsub
      · have h2 := hsubs t ht2
        rw [hfree1] at h2
        exact h2.trans Finset.sdiff_subset
    · refine List.Pairwise.cons ?_ hpw
      intro t ht
      have h2 := hsubs t ht
      rw [hfree1] at h2
      exact (Finset.sdiff_disjoint.mono_left h2).symm

/-- C3 (spec-modelled Partitioner): any sequence of reserve requests
whose counts sum to at most the pool size succeeds with pairwise
disjoint identifier sets of exactly the requested sizes, and releasing
a reserved set followed by a reserve of the same size always succeeds
(no leakage of identifiers). -/
theorem partitioner_disjoint_no_leak :
    (∀ (ns : List Nat) (p : ResourcePool), p.reserved = ∅ →
      ns.sum ≤ p.total.card →
      ∃ ss p2, runReserves ns p = some (ss, p2) ∧
        List.map Finset.card ss = ns ∧ List.Pairwise Disjoint ss) ∧
    (∀ (s : Finset Nat) (p : ResourcePool),
      s ⊆ p.reserved → p.reserved ⊆ p.total →
      ∃ t p2, reserve s.card (release s p) = some (t, p2) ∧
        t.card = s.card) := by
  constructor
  · intro ns p hres hsum
    have h : ns.sum ≤ (p.total \ p.reserved).card := by
      rw [hres, Finset.sdiff_empty]
      exact hsum
    obtain ⟨ss, p2, h1, h2, _, h4⟩ := runReserves_spec ns p h
    exact ⟨ss, p2, h1, h2, h4⟩
  · intro s p hs hrt
    have hsub : s ⊆ (release s p).total \ (release s p).reserved := by
      intro x hx
      have hx_total : x ∈ p.total := hrt (hs hx)
      have hx_free : x ∉ p.reserved \ s := fun hmem => (Finset.mem_sdiff.mp hmem).2 hx
      exact Finset.mem_sdiff.mpr ⟨hx_total, hx_free⟩
    have hcard : s.card ≤ ((release s p).total \ (release s p).reserved).card :=
      Finset.card_le_card hsub
    obtain ⟨t, h1, h2, _⟩ := reserve_some hcard
    exact ⟨t, _, h1, h2⟩

/-- Closed instances of `partitioner_disjoint_no_leak`: two requests
of two CPUs each on the pool 0-3 (the spec scenario), and a
release-then-reserve round trip of a two-identifier set. -/
theorem partitioner_disjoint_no_leak_witness :
    (∃ ss p2, runReserves [2, 2] ⟨{0, 1, 2, 3}, ∅⟩ = some (ss, p2) ∧
      List.map Finset.card ss = [2, 2] ∧ List.Pairwise Disjoint ss) ∧
    (∃ t p2, reserve (Finset.card {0, 1})
        (release {0, 1} ⟨{0, 1, 2, 3}, {0, 1, 2}⟩) = some (t, p2) ∧
      t.card = Finset.card {0, 1}) :=
  ⟨partitioner_disjoint_no_leak.1 [2, 2] ⟨{0, 1, 2, 3}, ∅⟩ rfl (by decide),
   partitioner_disjoint_no_leak.2 {0, 1} ⟨{0, 1, 2, 3}, {0, 1, 2}⟩
     (by decide) (by decide)⟩

end CodalabWorker

